import Mathlib

/-!
Shallow embedding of `exphub/download/neptune_downloader.py`
(class `NeptuneDownloader`) and proofs about its specification.

The remote Neptune service is modelled as an oracle (`RemoteWorld`):
the project handle answers run-table queries, and each run handle
answers per-column `fetch_values` calls with either a list of values,
a `NeptuneException` (the caught "missing column" condition), or some
other exception (which the code does not catch).  The process
environment is a map from variable names to values.  Python exceptions
are modelled by the `Err` type; the module only ever raises
`ValueError` with fixed messages, so each spec-level error kind
(ConfigurationError / ValidationError / NotFoundError) is identified
by its message.  Console output: the per-run "[WARNING] Run .. does
not have a column named .." prints are modelled as a list of warned
run ids; the purely informational "Fetching values for column" print
is not modelled.  Network interaction is modelled as a trace of
`RemoteCall`s made during an operation.
-/

/-- A `str`-or-`list` Python argument (selectors and `series_column`). -/
inductive StrOrList where
  | str (s : String)
  | list (l : List String)
deriving DecidableEq, Repr

/-- The four optional filter selectors of `download` / `download_series`. -/
structure Selectors where
  id : Option StrOrList
  state : Option StrOrList
  owner : Option StrOrList
  tag : Option StrOrList
deriving DecidableEq, Repr

/-- Outcome of `run[col_label].fetch_values(include_timestamp=False)` on one run:
success with the `value` column, a `neptune.exceptions.NeptuneException`
(what the code treats as "column missing"), or any other exception,
identified by a numeric code. -/
inductive FetchOutcome where
  | ok (values : List Int)
  | missing
  | fail (e : Nat)
deriving DecidableEq, Repr

/-- Python exceptions raised by (or through) the module. -/
inductive Err where
  | valueError (msg : String)
  | remote (e : Nat)
  | assertionError
  | indexError
deriving DecidableEq, Repr

/-- One remote/network interaction. -/
inductive RemoteCall where
  | initProject (name : String)
  | fetchRunsTable
  | initRun (runId : String)
  | fetchVals (runId : String) (col : String)
deriving DecidableEq, Repr

/-- A pandas DataFrame: ordered named columns; `none` is a NaN cell. -/
structure DF where
  cols : List (String × List (Option Int))
deriving DecidableEq, Repr

/-- Number of rows of a DataFrame (length of its index, which the code
always sets from the first assigned column). -/
def DF.nrows (df : DF) : Nat :=
  match df.cols with
  | [] => 0
  | c :: _ => c.2.length

/-- The remote service boundary: run-table queries and per-run fetches. -/
structure RemoteWorld where
  runsTable : Selectors → Option (List String) → DF
  runsTableIds : Selectors → List String
  runFetch : String → String → FetchOutcome

/-- The process environment. -/
def Env : Type := String → Option String

/-- Set one environment variable (`os.environ[k] = v`). -/
def envSet (env : Env) (k v : String) : Env :=
  fun q => if q = k then some v else env q

/-- The class attribute `NEPTUNE_API_TOKEN = 'NEPTUNE_API_TOKEN'`. -/
def NEPTUNE_API_TOKEN : String := "NEPTUNE_API_TOKEN"

/-- The state a constructed `NeptuneDownloader` holds. -/
structure NeptuneDownloader where
  project_name : String
  api_token : String
deriving DecidableEq, Repr

/-- `NeptuneDownloader.__init__`: resolve the token from the argument or
the environment (raising `ValueError` if neither is present), write an
explicit token back into the environment, then open the project handle
(the one remote call).  Returns the outcome, the resulting environment
and the remote calls made. -/
def NeptuneDownloader.init (project_name : String) (api_token : Option String)
    (env : Env) : (Except Err NeptuneDownloader) × Env × List RemoteCall :=
  match api_token with
  | none =>
    match env NEPTUNE_API_TOKEN with
    | none =>
      (.error (.valueError ("Environment variable " ++ NEPTUNE_API_TOKEN ++ " not found.")),
       env, [])
    | some t =>
      (.ok ⟨project_name, t⟩, env, [.initProject project_name])
  | some t =>
    (.ok ⟨project_name, t⟩, envSet env NEPTUNE_API_TOKEN t, [.initProject project_name])

/-- `all([id is None, state is None, owner is None, tag is None])`. -/
def noSelectors (sel : Selectors) : Bool :=
  sel.id.isNone && sel.state.isNone && sel.owner.isNone && sel.tag.isNone

/-- The message of the `ValueError` raised when no selector is given. -/
def validationMsg : String := "At least one of id, state, owner, or tag must be provided."

/-- `NeptuneDownloader.download`: reject an all-`None` selector set, else
one `fetch_runs_table` remote query converted to a DataFrame. -/
def download (w : RemoteWorld) (sel : Selectors) (columns : Option (List String)) :
    (Except Err DF) × List RemoteCall :=
  if noSelectors sel then
    (.error (.valueError validationMsg), [])
  else
    (.ok (w.runsTable sel columns), [.fetchRunsTable])

/-- Pad / truncate a list of fetched values to the `n` rows of an existing
index, as pandas column assignment aligns a RangeIndex-ed Series: values
beyond row `n` are dropped, rows beyond the series length become NaN. -/
def alignTo (n : Nat) (vs : List Int) : List (Option Int) :=
  (vs.take n).map some ++ List.replicate (n - vs.length) none

/-- The same alignment for an already NaN-padded column (used by `join`). -/
def alignOptTo (n : Nat) (vs : List (Option Int)) : List (Option Int) :=
  vs.take n ++ List.replicate (n - vs.length) none

/-- `df[label] = series` on a pandas DataFrame: an empty frame takes its
index from the assigned series; otherwise a fresh label is appended (an
existing one overwritten in place), aligned to the existing index. -/
def assignCol (df : DF) (label : String) (vs : List Int) : DF :=
  match df.cols with
  | [] => ⟨[(label, vs.map some)]⟩
  | _ =>
    if df.cols.any (fun p => p.1 = label) then
      ⟨df.cols.map (fun p => if p.1 = label then (label, alignTo df.nrows vs) else p)⟩
    else
      ⟨df.cols ++ [(label, alignTo df.nrows vs)]⟩

/-- `id2value[id] = value` on a Python dict kept as an insertion-ordered
association list: an existing key is overwritten in place. -/
def dictInsert (d : List (String × List Int)) (k : String) (v : List Int) :
    List (String × List Int) :=
  if d.any (fun p => p.1 = k) then d.map (fun p => if p.1 = k then (k, v) else p)
  else d ++ [(k, v)]

/-- The `for id, run in zip(ids, runs)` loop of `_fetch_values`: try the
fetch on each run in order, collecting values into `id2value` (`acc`) and
counting misses (`m`); an uncaught exception aborts the loop.  Returns the
loop outcome, the warned run ids and the fetches attempted. -/
def run_loop (w : RemoteWorld) (col : String) (acc : List (String × List Int))
    (m : Nat) : List String →
    (Except Nat (List (String × List Int) × Nat)) × List String × List RemoteCall
  | [] => (.ok (acc, m), [], [])
  | id :: rest =>
    match w.runFetch id col with
    | .ok vs =>
      let r := run_loop w col (dictInsert acc id vs) m rest
      (r.1, r.2.1, .fetchVals id col :: r.2.2)
    | .missing =>
      let r := run_loop w col acc (m + 1) rest
      (r.1, id :: r.2.1, .fetchVals id col :: r.2.2)
    | .fail e => (.error e, [], [.fetchVals id col])

/-- The tail of `_fetch_values` after the loop: `df = pd.DataFrame({})`
followed by one column assignment per collected run. -/
def buildDF (col : String) (pairs : List (String × List Int)) : DF :=
  pairs.foldl (fun df p => assignCol df (col ++ "_" ++ p.1) p.2) ⟨[]⟩

/-- `_fetch_values` on an already-normalized (scalar string) column label:
run the loop, escalate to `ValueError` when every run missed, else
assemble the per-series DataFrame. -/
def fetch_values_named (w : RemoteWorld) (ids : List String) (col : String) :
    (Except Err DF) × List String × List RemoteCall :=
  match run_loop w col [] 0 ids with
  | (.error e, warns, calls) => (.error (.remote e), warns, calls)
  | (.ok (pairs, m), warns, calls) =>
    if m = ids.length then
      (.error (.valueError ("No runs have a column named " ++ col)), warns, calls)
    else
      (.ok (buildDF col pairs), warns, calls)

/-- `_fetch_values`: a list argument is asserted to have one element and
normalized to it (`col_label = col_label[0]`), then the named fetch runs. -/
def fetch_values (w : RemoteWorld) (ids : List String) (col_label : StrOrList) :
    (Except Err DF) × List String × List RemoteCall :=
  match col_label with
  | .str s => fetch_values_named w ids s
  | .list l =>
    if l.length = 1 then fetch_values_named w ids (l.headD "")
    else (.error .assertionError, [], [])

/-- The list comprehension `[_fetch_values(c) for c in series_column]`:
evaluate left to right, a raised exception propagating immediately. -/
def multiFetch (w : RemoteWorld) (ids : List String) :
    List String → (Except Err (List DF)) × List String × List RemoteCall
  | [] => (.ok [], [], [])
  | c :: rest =>
    let r := fetch_values w ids (.str c)
    match r.1 with
    | .error e => (.error e, r.2.1, r.2.2)
    | .ok df =>
      let r2 := multiFetch w ids rest
      match r2.1 with
      | .error e => (.error e, r.2.1 ++ r2.2.1, r.2.2 ++ r2.2.2)
      | .ok dfs => (.ok (df :: dfs), r.2.1 ++ r2.2.1, r.2.2 ++ r2.2.2)

/-- `df.join(d)` on RangeIndex-ed frames: pandas `DataFrame.join` defaults
to `how='left'`, so the result keeps the left frame's index, the right
frame's columns aligned to it; overlapping column names raise `ValueError`. -/
def joinDF (a b : DF) : Except Err DF :=
  if a.cols.any (fun p => b.cols.any (fun q => q.1 = p.1)) then
    .error (.valueError "columns overlap but no suffix specified")
  else
    .ok ⟨a.cols ++ b.cols.map (fun p => (p.1, alignOptTo a.nrows p.2))⟩

/-- `df = dfs[0]; for d in dfs[1:]: df = df.join(d)`. -/
def foldJoin : DF → List DF → Except Err DF
  | df, [] => .ok df
  | df, d :: rest =>
    match joinDF df d with
    | .error e => .error e
    | .ok df2 => foldJoin df2 rest

/-- `NeptuneDownloader.download_series`: validate selectors, resolve the
filtered run ids, open one run handle per id, then fetch.  A scalar or
one-element `series_column` returns `_fetch_values`' frame directly
(`some df`); the multi-series branch computes the left-joins but its
Python body has no `return` statement, so the function returns `None`
(`none` here).  Result, warned run ids, remote-call trace. -/
def download_series (w : RemoteWorld) (sel : Selectors) (series_column : StrOrList) :
    (Except Err (Option DF)) × List String × List RemoteCall :=
  if noSelectors sel then
    (.error (.valueError validationMsg), [], [])
  else
    let ids := w.runsTableIds sel
    let pre := RemoteCall.fetchRunsTable :: ids.map RemoteCall.initRun
    match series_column with
    | .str s =>
      let r := fetch_values w ids (.str s)
      (r.1.map some, r.2.1, pre ++ r.2.2)
    | .list l =>
      if l.length = 1 then
        let r := fetch_values w ids (.list l)
        (r.1.map some, r.2.1, pre ++ r.2.2)
      else
        let r := multiFetch w ids l
        match r.1 with
        | .error e => (.error e, r.2.1, pre ++ r.2.2)
        | .ok dfs =>
          match dfs with
          | [] => (.error .indexError, r.2.1, pre ++ r.2.2)
          | df0 :: rest =>
            match foldJoin df0 rest with
            | .error e => (.error e, r.2.1, pre ++ r.2.2)
            | .ok _ => (.ok none, r.2.1, pre ++ r.2.2)

/-- Did the fetch succeed? -/
def FetchOutcome.isOk : FetchOutcome → Bool
  | .ok _ => true
  | _ => false

/-- Was the fetch a caught `NeptuneException` ("column missing")? -/
def FetchOutcome.isMissing : FetchOutcome → Bool
  | .missing => true
  | _ => false

/-- Was the fetch an uncaught exception? -/
def FetchOutcome.isFail : FetchOutcome → Bool
  | .fail _ => true
  | _ => false

/-- The `(id, values)` pairs the loop collects, in run order. -/
def okPairs (w : RemoteWorld) (col : String) (ids : List String) :
    List (String × List Int) :=
  ids.filterMap (fun id =>
    match w.runFetch id col with
    | .ok vs => some (id, vs)
    | _ => none)

/-- The run ids the loop warns about, in run order. -/
def missingIds (w : RemoteWorld) (col : String) (ids : List String) : List String :=
  ids.filter (fun id => (w.runFetch id col).isMissing)

/-- The columns `_fetch_values` assembles from the collected pairs: one
column `{col}_{id}` per pair, the first pair's values fixing the index,
later pairs aligned (truncated / NaN-padded) to it. -/
def alignedCols (col : String) : List (String × List Int) → List (String × List (Option Int))
  | [] => []
  | (id, vs) :: rest =>
    (col ++ "_" ++ id, vs.map some) ::
      rest.map (fun p => (col ++ "_" ++ p.1, alignTo vs.length p.2))

/-- A concrete remote world used to instantiate the theorems: three runs
match the `expA` tag (none match `empty`); series `loss` lives on `R1`
and `R3` only, `acc` on all three, `boom` succeeds on `R1` but raises an
uncaught exception (code 42) on the others, and any other name is
missing everywhere. -/
def wEx : RemoteWorld where
  runsTable := fun _ _ => ⟨[]⟩
  runsTableIds := fun sel => if sel.tag = some (.str "empty") then [] else ["R1", "R2", "R3"]
  runFetch := fun id col =>
    if col = "loss" then
      (if id = "R1" then .ok [9, 5, 2] else if id = "R3" then .ok [7, 4] else .missing)
    else if col = "acc" then .ok [1, 2, 3]
    else if col = "boom" then (if id = "R1" then .ok [1] else .fail 42)
    else .missing

/-- A selector set matching runs `R1`, `R2`, `R3` of `wEx`. -/
def selEx : Selectors := ⟨none, none, none, some (.str "expA")⟩

/-- A selector set matching no run of `wEx`. -/
def selEmpty : Selectors := ⟨none, none, none, some (.str "empty")⟩

/-- The first requested series name, if any. -/
def seriesHead : StrOrList → Option String
  | .str s => some s
  | .list [] => none
  | .list (c :: _) => some c

/-- The `id2value` dict the loop has built after processing `ids`,
starting from `acc`. -/
def collectPairs (w : RemoteWorld) (col : String) (acc : List (String × List Int)) :
    List String → List (String × List Int)
  | [] => acc
  | id :: rest =>
    match w.runFetch id col with
    | .ok vs => collectPairs w col (dictInsert acc id vs) rest
    | _ => collectPairs w col acc rest

/-- C1: the claim says `download_series` with two or more series names
returns one wide outer-joined table.  The code's multi-series branch
computes left-joins (`df.join` defaults to `how='left'`) and then falls
off the end of the function without a `return` statement, so the call
returns Python `None` — here, with both `loss` and `acc` resolvable,
the result is `.ok none` instead of a table. -/
theorem C1_multi_series_returns_none :
    (download_series wEx selEx (.list ["loss", "acc"])).1 = .ok none := by
  rfl

/-- C4: with all four selectors `None`, both `download` and
`download_series` raise the `ValueError` asking for at least one
selector, and the remote-call trace is empty: no network interaction
happens. -/
theorem C4_validation_before_network (w : RemoteWorld) (columns : Option (List String))
    (series : StrOrList) :
    download w ⟨none, none, none, none⟩ columns =
        (.error (.valueError validationMsg), []) ∧
      download_series w ⟨none, none, none, none⟩ series =
        (.error (.valueError validationMsg), [], []) :=
  ⟨rfl, rfl⟩

/-- C6: constructing the downloader with no token argument while the
environment lacks `NEPTUNE_API_TOKEN` raises the configuration
`ValueError` before any remote call (empty trace), leaving the
environment unchanged. -/
theorem C6_missing_token_config_error (project : String) (env : Env)
    (h : env NEPTUNE_API_TOKEN = none) :
    NeptuneDownloader.init project none env =
      (.error (.valueError ("Environment variable " ++ NEPTUNE_API_TOKEN ++ " not found.")),
       env, []) := by
  simp [NeptuneDownloader.init, h]

/-- Witness for C6 at a concrete empty environment. -/
theorem C6_missing_token_config_error_witness :
    NeptuneDownloader.init "org/proj" none (fun _ => none) =
      (.error (.valueError ("Environment variable " ++ NEPTUNE_API_TOKEN ++ " not found.")),
       (fun _ => none), []) :=
  C6_missing_token_config_error "org/proj" (fun _ => none) rfl

/-- C7: constructing the downloader with an explicit token writes that
token back into the process environment: afterwards
`NEPTUNE_API_TOKEN` holds exactly the supplied value. -/
theorem C7_token_written_back (project t : String) (env : Env) :
    ((NeptuneDownloader.init project (some t) env).2.1) NEPTUNE_API_TOKEN = some t := by
  simp [NeptuneDownloader.init, envSet]

/-- C8: a one-element list `[s]` passed as `series_column` is normalized
to the scalar `s`: `download_series` returns the very same result,
warnings and trace for both spellings. -/
theorem C8_singleton_list_normalized (w : RemoteWorld) (sel : Selectors) (s : String) :
    download_series w sel (.list [s]) = download_series w sel (.str s) := by
  unfold download_series
  by_cases h : noSelectors sel <;> simp [h, fetch_values]

/-- C10: constructing the downloader without an explicit token never
mutates the process environment — neither when the token is read from
it nor when construction fails for lack of one. -/
theorem C10_env_untouched_without_token (project : String) (env : Env) :
    (NeptuneDownloader.init project none env).2.1 = env := by
  unfold NeptuneDownloader.init
  cases h : env NEPTUNE_API_TOKEN <;> simp

/-- Column labels `{col}_{id}` determine the run id. -/
theorem label_inj {col a b : String} (h : col ++ "_" ++ a = col ++ "_" ++ b) : a = b := by
  apply String.ext
  have h2 := congrArg String.data h
  simpa [String.data_append] using h2

/-- The keys of the collected pairs are the runs whose fetch succeeded. -/
theorem okPairs_keys (w : RemoteWorld) (col : String) (ids : List String) :
    (okPairs w col ids).map Prod.fst =
      ids.filter (fun id => (w.runFetch id col).isOk) := by
  induction ids with
  | nil => rfl
  | cons id rest ih =>
    cases hfetch : w.runFetch id col <;>
      simp [okPairs, List.filterMap_cons, hfetch, FetchOutcome.isOk] <;>
      simpa [okPairs] using ih

/-- The labels of the assembled columns, one per collected pair. -/
theorem alignedCols_keys (col : String) (pairs : List (String × List Int)) :
    (alignedCols col pairs).map Prod.fst = pairs.map (fun p => col ++ "_" ++ p.1) := by
  cases pairs with
  | nil => rfl
  | cons p rest => simp [alignedCols]

/-- With no key of `acc` among the (distinct) remaining ids, the dict the
loop builds is `acc` extended by the collected pairs, in run order. -/
theorem collectPairs_fresh (w : RemoteWorld) (col : String) (ids : List String) :
    ∀ acc : List (String × List Int),
    ids.Nodup → (∀ p ∈ acc, p.1 ∉ ids) →
    collectPairs w col acc ids = acc ++ okPairs w col ids := by
  induction ids with
  | nil => intro acc _ _; simp [collectPairs, okPairs]
  | cons id rest ih =>
    intro acc hnd hfresh
    obtain ⟨hid, hnd2⟩ := List.nodup_cons.mp hnd
    have hrest : ∀ p ∈ acc, p.1 ∉ rest :=
      fun p hp hr => hfresh p hp (List.mem_cons_of_mem _ hr)
    cases hfetch : w.runFetch id col with
    | ok vs =>
      have hnotin : acc.any (fun p => p.1 = id) = false := by
        rw [List.any_eq_false]
        intro p hp
        simpa using fun he => hfresh p hp (by simp [he])
      have hins : dictInsert acc id vs = acc ++ [(id, vs)] := by
        simp [dictInsert, hnotin]
      have hfresh2 : ∀ p ∈ acc ++ [(id, vs)], p.1 ∉ rest := by
        intro p hp
        rcases List.mem_append.mp hp with h | h
        · exact hrest p h
        · simp only [List.mem_singleton] at h
          subst h
          simpa using hid
      simp only [collectPairs, hfetch, hins]
      rw [ih (acc ++ [(id, vs)]) hnd2 hfresh2]
      simp [okPairs, List.filterMap_cons, hfetch]
    | missing =>
      simp only [collectPairs, hfetch]
      rw [ih acc hnd2 hrest]
      simp [okPairs, List.filterMap_cons, hfetch]
    | fail e =>
      simp only [collectPairs, hfetch]
      rw [ih acc hnd2 hrest]
      simp [okPairs, List.filterMap_cons, hfetch]

/-- When no run raises an uncaught exception, the loop completes: it
collects the successful pairs, counts and warns exactly the missing
runs, and attempts one fetch per run. -/
theorem run_loop_no_fail (w : RemoteWorld) (col : String) (ids : List String) :
    ∀ (acc : List (String × List Int)) (m : Nat),
    (∀ id ∈ ids, (w.runFetch id col).isFail = false) →
    run_loop w col acc m ids =
      (.ok (collectPairs w col acc ids, m + (missingIds w col ids).length),
       missingIds w col ids,
       ids.map (fun id => RemoteCall.fetchVals id col)) := by
  induction ids with
  | nil => intro acc m _; simp [run_loop, collectPairs, missingIds]
  | cons id rest ih =>
    intro acc m h
    have hrest : ∀ i ∈ rest, (w.runFetch i col).isFail = false :=
      fun i hi => h i (List.mem_cons_of_mem _ hi)
    cases hfetch : w.runFetch id col with
    | ok vs =>
      simp only [run_loop, hfetch]
      rw [ih (dictInsert acc id vs) m hrest]
      simp [collectPairs, missingIds, hfetch, FetchOutcome.isMissing]
    | missing =>
      simp only [run_loop, hfetch]
      rw [ih acc (m + 1) hrest]
      simp [collectPairs, missingIds, hfetch, FetchOutcome.isMissing]
      omega
    | fail e =>
      exact absurd (h id (List.mem_cons_self _ _)) (by simp [hfetch, FetchOutcome.isFail])

/-- `_fetch_values` on a scalar label, over distinct runs none of which
raises an uncaught exception and at least one of which has the series:
it returns the assembled frame, warns exactly the missing runs, and
attempts one fetch per run. -/
theorem fetch_values_named_no_fail (w : RemoteWorld) (col : String) (ids : List String)
    (hnd : ids.Nodup)
    (hnf : ∀ id ∈ ids, (w.runFetch id col).isFail = false)
    (hok : ∃ id ∈ ids, (w.runFetch id col).isOk = true) :
    fetch_values_named w ids col =
      (.ok (buildDF col (okPairs w col ids)), missingIds w col ids,
       ids.map (fun id => RemoteCall.fetchVals id col)) := by
  have hlen : (missingIds w col ids).length ≠ ids.length := by
    intro hlen
    have hall : missingIds w col ids = ids :=
      (List.filter_sublist ids).eq_of_length hlen
    obtain ⟨i, hi, hoki⟩ := hok
    have hmi : (w.runFetch i col).isMissing = true :=
      List.filter_eq_self.mp hall i hi
    cases hf : w.runFetch i col <;>
      simp [hf, FetchOutcome.isOk, FetchOutcome.isMissing] at hoki hmi
  have hcoll : collectPairs w col [] ids = okPairs w col ids := by
    simpa using collectPairs_fresh w col ids [] hnd (by simp)
  unfold fetch_values_named
  rw [run_loop_no_fail w col ids [] 0 hnf, hcoll]
  simp [hlen]

/-- Folding the remaining column assignments over a nonempty frame whose
labels avoid the (distinct) incoming ones appends each new column,
aligned to the index the first column fixed. -/
theorem assign_fold (col : String) (rest : List (String × List Int)) :
    ∀ (d0 : String × List (Option Int)) (ds : List (String × List (Option Int))),
    (∀ p ∈ rest, ∀ q ∈ d0 :: ds, q.1 ≠ col ++ "_" ++ p.1) →
    (rest.map Prod.fst).Nodup →
    rest.foldl (fun df p => assignCol df (col ++ "_" ++ p.1) p.2) ⟨d0 :: ds⟩ =
      ⟨d0 :: ds ++ rest.map (fun p => (col ++ "_" ++ p.1, alignTo d0.2.length p.2))⟩ := by
  induction rest with
  | nil => intro d0 ds _ _; simp
  | cons p rest ih =>
    intro d0 ds hfresh hnd
    obtain ⟨hp1, hnd2⟩ := List.nodup_cons.mp hnd
    have hany : (d0 :: ds).any (fun q => q.1 = col ++ "_" ++ p.1) = false := by
      rw [List.any_eq_false]
      intro q hq
      simpa using hfresh p (List.mem_cons_self _ _) q hq
    have hassign : assignCol ⟨d0 :: ds⟩ (col ++ "_" ++ p.1) p.2 =
        ⟨d0 :: (ds ++ [(col ++ "_" ++ p.1, alignTo d0.2.length p.2)])⟩ := by
      simp [assignCol, hany, DF.nrows]
    have hfresh2 : ∀ r ∈ rest,
        ∀ q ∈ d0 :: (ds ++ [(col ++ "_" ++ p.1, alignTo d0.2.length p.2)]),
        q.1 ≠ col ++ "_" ++ r.1 := by
      intro r hr q hq
      rcases List.mem_cons.mp hq with h | h
      · exact hfresh r (List.mem_cons_of_mem _ hr) q (h ▸ List.mem_cons_self _ _)
      · rcases List.mem_append.mp h with h2 | h2
        · exact hfresh r (List.mem_cons_of_mem _ hr) q (List.mem_cons_of_mem _ h2)
        · simp only [List.mem_singleton] at h2
          subst h2
          intro hcontra
          exact hp1 (by
            have : p.1 = r.1 := label_inj hcontra
            rw [this]
            exact List.mem_map_of_mem Prod.fst hr)
    rw [List.foldl_cons, hassign, ih _ _ hfresh2 hnd2]
    simp

/-- `_fetch_values`' frame assembly over pairs with distinct keys: one
column per pair, labeled `{col}_{id}`, the first pair's values fixing
the index and later pairs aligned to it. -/
theorem buildDF_eq (col : String) (pairs : List (String × List Int))
    (hnd : (pairs.map Prod.fst).Nodup) :
    buildDF col pairs = ⟨alignedCols col pairs⟩ := by
  cases pairs with
  | nil => rfl
  | cons p0 rest =>
    obtain ⟨hp0, hnd2⟩ := List.nodup_cons.mp hnd
    have hfresh : ∀ p ∈ rest, ∀ q ∈ [(col ++ "_" ++ p0.1, p0.2.map some)],
        q.1 ≠ col ++ "_" ++ p.1 := by
      intro p hp q hq
      simp only [List.mem_singleton] at hq
      subst hq
      intro hcontra
      exact hp0 (by
        have : p0.1 = p.1 := label_inj hcontra
        rw [this]
        exact List.mem_map_of_mem Prod.fst hp)
    unfold buildDF
    rw [List.foldl_cons]
    have h0 : assignCol ⟨[]⟩ (col ++ "_" ++ p0.1) p0.2 =
        ⟨[(col ++ "_" ++ p0.1, p0.2.map some)]⟩ := rfl
    rw [h0, assign_fold col rest (col ++ "_" ++ p0.1, p0.2.map some) [] hfresh hnd2]
    simp [alignedCols]

/-- C2: when the requested series is present on some but not all of the
(distinct) filtered runs and no run raises an uncaught exception,
`download_series` returns — without raising — a table with exactly one
value column per run that had the series, labeled `{series}_{runId}` in
fetch order with rows aligned positionally to the first such run, and
warns exactly once per run missing the series. -/
theorem C2_partial_series (w : RemoteWorld) (sel : Selectors) (col : String)
    (hsel : noSelectors sel = false)
    (hnd : (w.runsTableIds sel).Nodup)
    (hnf : ∀ id ∈ w.runsTableIds sel, (w.runFetch id col).isFail = false)
    (hok : ∃ id ∈ w.runsTableIds sel, (w.runFetch id col).isOk = true)
    (hmiss : ∃ id ∈ w.runsTableIds sel, (w.runFetch id col).isMissing = true) :
    (download_series w sel (.str col)).1 =
        .ok (some ⟨alignedCols col (okPairs w col (w.runsTableIds sel))⟩) ∧
      (download_series w sel (.str col)).2.1 =
        missingIds w col (w.runsTableIds sel) ∧
      (alignedCols col (okPairs w col (w.runsTableIds sel))).map Prod.fst =
        ((w.runsTableIds sel).filter (fun id => (w.runFetch id col).isOk)).map
          (fun id => col ++ "_" ++ id) := by
  have hkeys : ((okPairs w col (w.runsTableIds sel)).map Prod.fst).Nodup := by
    rw [okPairs_keys]
    exact hnd.filter _
  have hfv := fetch_values_named_no_fail w col (w.runsTableIds sel) hnd hnf hok
  rw [buildDF_eq col _ hkeys] at hfv
  refine ⟨?_, ?_, ?_⟩
  · simp [download_series, hsel, fetch_values, hfv, Except.map]
  · simp [download_series, hsel, fetch_values, hfv]
  · rw [alignedCols_keys, ← okPairs_keys, List.map_map]
    rfl

/-- Witness for C2: in `wEx`, series `loss` lives on runs `R1` and `R3`
but not `R2`. -/
theorem C2_partial_series_witness :
    (download_series wEx selEx (.str "loss")).1 =
        .ok (some ⟨alignedCols "loss" (okPairs wEx "loss" (wEx.runsTableIds selEx))⟩) ∧
      (download_series wEx selEx (.str "loss")).2.1 =
        missingIds wEx "loss" (wEx.runsTableIds selEx) ∧
      (alignedCols "loss" (okPairs wEx "loss" (wEx.runsTableIds selEx))).map Prod.fst =
        ((wEx.runsTableIds selEx).filter (fun id => (wEx.runFetch id "loss").isOk)).map
          (fun id => "loss" ++ "_" ++ id) :=
  C2_partial_series wEx selEx "loss" (by decide) (by decide) (by decide)
    (by decide) (by decide)

/-- The concrete table behind the C2 witness: two columns, `loss_R3`
NaN-padded to the three rows `loss_R1` fixed, and one warning for `R2`. -/
theorem C2_concrete_table :
    (download_series wEx selEx (.str "loss")).1 =
        .ok (some ⟨[("loss_R1", [some 9, some 5, some 2]),
                    ("loss_R3", [some 7, some 4, none])]⟩) ∧
      (download_series wEx selEx (.str "loss")).2.1 = ["R2"] := by
  constructor <;> rfl

/-- C3: when the requested series is absent from every filtered run,
`download_series` raises the no-such-series `ValueError` instead of
returning a table. -/
theorem C3_all_missing_raises (w : RemoteWorld) (sel : Selectors) (col : String)
    (hsel : noSelectors sel = false)
    (hall : ∀ id ∈ w.runsTableIds sel, (w.runFetch id col).isMissing = true) :
    (download_series w sel (.str col)).1 =
      .error (.valueError ("No runs have a column named " ++ col)) := by
  have hnf : ∀ id ∈ w.runsTableIds sel, (w.runFetch id col).isFail = false := by
    intro id hid
    have := hall id hid
    cases hf : w.runFetch id col <;>
      simp [hf, FetchOutcome.isMissing, FetchOutcome.isFail] at this ⊢
  have hflt : missingIds w col (w.runsTableIds sel) = w.runsTableIds sel :=
    List.filter_eq_self.mpr hall
  have hfv : (fetch_values_named w (w.runsTableIds sel) col).1 =
      .error (.valueError ("No runs have a column named " ++ col)) := by
    unfold fetch_values_named
    rw [run_loop_no_fail w col (w.runsTableIds sel) [] 0 hnf, hflt]
    simp
  simp [download_series, hsel, fetch_values]
  rcases hr : fetch_values_named w (w.runsTableIds sel) col with ⟨r1, r2, r3⟩
  rw [hr] at hfv
  simp at hfv
  simp [hfv, Except.map]

/-- Witness for C3: no run of `wEx` has a series named `lr`. -/
theorem C3_all_missing_raises_witness :
    (download_series wEx selEx (.str "lr")).1 =
      .error (.valueError ("No runs have a column named " ++ "lr")) :=
  C3_all_missing_raises wEx selEx "lr" (by decide) (by decide)

/-- The loop aborts with the first uncaught exception: runs before it
succeed or miss, the failing run's exception escapes as raised. -/
theorem run_loop_fail (w : RemoteWorld) (col : String) (ids1 : List String) :
    ∀ (acc : List (String × List Int)) (m : Nat) (id0 : String) (ids2 : List String)
      (e : Nat),
    (∀ id ∈ ids1, (w.runFetch id col).isFail = false) →
    w.runFetch id0 col = .fail e →
    (run_loop w col acc m (ids1 ++ id0 :: ids2)).1 = .error e := by
  induction ids1 with
  | nil =>
    intro acc m id0 ids2 e _ h0
    simp [run_loop, h0]
  | cons id rest ih =>
    intro acc m id0 ids2 e h1 h0
    have hrest : ∀ i ∈ rest, (w.runFetch i col).isFail = false :=
      fun i hi => h1 i (List.mem_cons_of_mem _ hi)
    cases hfetch : w.runFetch id col with
    | ok vs =>
      simp only [List.cons_append, run_loop, hfetch]
      exact ih (dictInsert acc id vs) m id0 ids2 e hrest h0
    | missing =>
      simp only [List.cons_append, run_loop, hfetch]
      exact ih acc (m + 1) id0 ids2 e hrest h0
    | fail e2 =>
      exact absurd (h1 id (List.mem_cons_self _ _)) (by simp [hfetch, FetchOutcome.isFail])

/-- C5: the first uncaught remote exception among the per-run fetches
propagates out of `download_series` unmodified — not wrapped, not
retried, not downgraded to a warning; only the missing-series
`NeptuneException` is tolerated. -/
theorem C5_remote_failure_propagates (w : RemoteWorld) (sel : Selectors) (col : String)
    (ids1 ids2 : List String) (id0 : String) (e : Nat)
    (hsel : noSelectors sel = false)
    (hids : w.runsTableIds sel = ids1 ++ id0 :: ids2)
    (h1 : ∀ id ∈ ids1, (w.runFetch id col).isFail = false)
    (h0 : w.runFetch id0 col = .fail e) :
    (download_series w sel (.str col)).1 = .error (.remote e) := by
  have hfv : (fetch_values_named w (w.runsTableIds sel) col).1 = .error (.remote e) := by
    unfold fetch_values_named
    rw [hids]
    have hfail := run_loop_fail w col ids1 [] 0 id0 ids2 e h1 h0
    rcases hrl : run_loop w col [] 0 (ids1 ++ id0 :: ids2) with ⟨r1, r2, r3⟩
    rw [hrl] at hfail
    have hr1 : r1 = .error e := hfail
    subst hr1
    rfl
  simp [download_series, hsel, fetch_values]
  rcases hr : fetch_values_named w (w.runsTableIds sel) col with ⟨r1, r2, r3⟩
  rw [hr] at hfv
  simp at hfv
  simp [hfv, Except.map]

/-- Witness for C5: fetching `boom` in `wEx` succeeds on `R1` and raises
the uncaught exception 42 on `R2`. -/
theorem C5_remote_failure_propagates_witness :
    (download_series wEx selEx (.str "boom")).1 = .error (.remote 42) :=
  C5_remote_failure_propagates wEx selEx "boom" ["R1"] ["R3"] "R2" 42
    (by decide) (by decide) (by decide) (by decide)

/-- C9: when the selectors resolve to an empty run set, `download_series`
raises the no-such-series `ValueError` for the first requested series
name — the missing count 0 equals the run count 0 — and never returns
an (empty) table. -/
theorem C9_empty_run_set_raises (w : RemoteWorld) (sel : Selectors)
    (series : StrOrList) (c : String)
    (hsel : noSelectors sel = false)
    (hids : w.runsTableIds sel = [])
    (hname : seriesHead series = some c) :
    (download_series w sel series).1 =
      .error (.valueError ("No runs have a column named " ++ c)) := by
  cases series with
  | str s =>
    obtain rfl : s = c := by simpa [seriesHead] using hname
    simp [download_series, hsel, hids, fetch_values, fetch_values_named, run_loop,
      Except.map]
  | list l =>
    rcases l with _ | ⟨x, _ | ⟨y, rest⟩⟩
    · simp [seriesHead] at hname
    · obtain rfl : x = c := by simpa [seriesHead] using hname
      simp [download_series, hsel, hids, fetch_values, fetch_values_named, run_loop,
        Except.map]
    · obtain rfl : x = c := by simpa [seriesHead] using hname
      simp [download_series, hsel, hids, multiFetch, fetch_values, fetch_values_named,
        run_loop]

/-- Witness for C9: the `empty` tag matches no run of `wEx`, and fetching
`loss` then raises the no-such-series error. -/
theorem C9_empty_run_set_raises_witness :
    (download_series wEx selEmpty (.str "loss")).1 =
      .error (.valueError ("No runs have a column named " ++ "loss")) :=
  C9_empty_run_set_raises wEx selEmpty (.str "loss") "loss"
    (by decide) (by decide) (by decide)
